import Mathlib

/-!
Verification development for the websocket client module (src/ws.rs) of
lpturmel/libsql-tui: a hrana-protocol client multiplexing request/response
pairs over one duplex stream, correlated by integer request ids.

The embedding below transcribes, from the Rust source:
  * the data model (`ResponseMsg`, `ResponseType`, `StmtResult`, ...);
  * the serde decode of inbound frames (internally tagged enum on "type");
  * the correlation table (DashMap<i32, oneshot::Sender<ResponseType>>),
    modelled as an association list with unique keys, each sender identified
    by an abstract slot number;
  * the read-loop body (`spawn_read_loop`) as a step function on the table,
    and its iteration over a list of inbound frames;
  * the post-await dispatch of `execute_statement` and `open_stream`;
  * the statement order of each operation (send / insert / await) as a trace
    of abstract actions;
  * the request-id generator (`AtomicI32::new(1)` + `fetch_add(1)`, which
    returns the previous value) with two's-complement i32 wrapping.

`f64` fields (`query_duration_ms`, the Float scalar) are carried as their
wire text: no operation in the claims inspects them numerically.
-/

/-- `const HELLO_REQ_ID: i32 = 1;` -/
def HELLO_REQ_ID : Int := 1

/-- `const PING_REQ_ID: i32 = -1;` -/
def PING_REQ_ID : Int := -1

/-- `pub struct Column { name: Option<String>, decltype: Option<String> }` -/
structure Column where
  name : Option String
  decltype : Option String
deriving DecidableEq

/-- `pub enum LibSqlValue` (tagged scalar values); the f64 of `Float` is
carried as its wire text. -/
inductive LibSqlValue
  | Null
  | Integer (value : String)
  | Float (value : String)
  | Text (value : String)
  | Blob (base64 : String)
deriving DecidableEq

/-- `pub struct StmtResult`; `query_duration_ms: f64` carried as wire text. -/
structure StmtResult where
  cols : List Column
  rows : List (List LibSqlValue)
  affected_row_count : Int
  rows_read : Int
  rows_written : Int
  query_duration_ms : String
deriving DecidableEq

/-- `pub enum ResponseType` with `#[serde(tag = "type")]`: variants `Pong`,
`Error { message }`, `hello_ok`, `open_stream`, `execute`. There is no
fallback variant for unknown tags. -/
inductive ResponseType
  | Pong
  | Error (message : String)
  | HelloOk
  | OpenStreamResp
  | ExecuteResp (result : StmtResult)
deriving DecidableEq

/-- `pub struct ErrorType { message: String }` -/
structure ErrorType where
  message : String
deriving DecidableEq

/-- `pub struct ResponseMsg { type, request_id?, response?, error? }` after a
successful serde decode. -/
structure ResponseMsg where
  ty : String
  request_id : Option Int
  response : Option ResponseType
  error : Option ErrorType
deriving DecidableEq

/-- The raw JSON object under the "response" key, before the internally
tagged enum decode: its "type" tag plus the fields the known variants
consume. -/
structure RawResponsePayload where
  tag : String
  message : Option String
  result : Option StmtResult
deriving DecidableEq

/-- An inbound text frame whose JSON shape structurally matches `ResponseMsg`,
prior to decoding the payload enum. -/
structure RawResponseMsg where
  ty : String
  request_id : Option Int
  response : Option RawResponsePayload
  error : Option ErrorType
deriving DecidableEq

/-- serde decode of the internally tagged `ResponseType`: the renamed tags
"hello_ok" / "open_stream" / "execute" plus the unrenamed variant names
"Pong" / "Error". Any other tag is a deserialization error (`none`):
the enum declares no fallback variant. -/
def decodeResponseType (p : RawResponsePayload) : Option ResponseType :=
  if p.tag = "Pong" then some .Pong
  else if p.tag = "Error" then p.message.map ResponseType.Error
  else if p.tag = "hello_ok" then some .HelloOk
  else if p.tag = "open_stream" then some .OpenStreamResp
  else if p.tag = "execute" then p.result.map ResponseType.ExecuteResp
  else none

/-- serde decode of a whole `ResponseMsg` frame. A present "response" value
whose tag the enum rejects fails the entire frame (an `Option<T>` field
swallows absence, not an invalid value). -/
def decodeResponseMsg (raw : RawResponseMsg) : Option ResponseMsg :=
  match raw.response with
  | none => some ⟨raw.ty, raw.request_id, none, raw.error⟩
  | some p =>
    match decodeResponseType p with
    | none => none
    | some r => some ⟨raw.ty, raw.request_id, some r, raw.error⟩

/-! ## The correlation table

`pending: Arc<DashMap<i32, oneshot::Sender<ResponseType>>>`, modelled as an
association list with unique keys; each `oneshot::Sender` is identified by an
abstract slot number. `DashMap::remove` is lookup-and-erase in one atomic
step; the listener task is its only remover. -/

abbrev PendingTable := List (Int × Nat)

def lookupSlot : PendingTable → Int → Option Nat
  | [], _ => none
  | e :: rest, i => if e.1 = i then some e.2 else lookupSlot rest i

def eraseSlot : PendingTable → Int → PendingTable
  | [], _ => []
  | e :: rest, i => if e.1 = i then rest else e :: eraseSlot rest i

/-- A DashMap holds at most one entry per key. -/
def keysNodup (t : PendingTable) : Prop := (t.map Prod.fst).Nodup

instance (t : PendingTable) : Decidable (keysNodup t) := by
  unfold keysNodup
  infer_instance

/-- What the read-loop body does to the oneshot sender it removed, if any. -/
inductive Delivery
  | noDelivery
  | resolved (id : Int) (slot : Nat) (v : ResponseType)
  | droppedSender (id : Int) (slot : Nat)
deriving DecidableEq

/-- The lines the read-loop body prints. -/
inductive LogEvent
  | parseError
  | nonResponseText
  | unhandledResponseText
  | connectionClosed
  | otherMessage
  | streamError
deriving DecidableEq

/-- One inbound unit seen by the read loop. -/
inductive InboundFrame
  | text (raw : RawResponseMsg)
  | malformedText
  | close
  | pong
  | otherFrame
  | streamError
deriving DecidableEq

structure StepResult where
  pending : PendingTable
  delivery : Delivery
  logs : List LogEvent
  continueLoop : Bool
deriving DecidableEq

/-- `let request_id = response_msg.request_id.unwrap_or(HELLO_REQ_ID);` -/
def effectiveRequestId (msg : ResponseMsg) : Int :=
  msg.request_id.getD HELLO_REQ_ID

/-- The body run on a successfully decoded `ResponseMsg`: remove the table
entry for the (defaulted) id, then match on the outer "type" string; the
`response_error` arm only sends when an error object is present, and the
catch-all arm only sends when a payload is present — otherwise the removed
sender is dropped without a value. -/
def dispatchDecoded (t : PendingTable) (msg : ResponseMsg) : StepResult :=
  match lookupSlot t (effectiveRequestId msg) with
  | none => ⟨t, .noDelivery, [], true⟩
  | some s =>
    if msg.ty = "hello_ok" then
      ⟨eraseSlot t (effectiveRequestId msg), .resolved (effectiveRequestId msg) s .HelloOk, [], true⟩
    else if msg.ty = "response_error" then
      match msg.error with
      | some err =>
        ⟨eraseSlot t (effectiveRequestId msg), .resolved (effectiveRequestId msg) s (.Error err.message), [], true⟩
      | none => ⟨eraseSlot t (effectiveRequestId msg), .droppedSender (effectiveRequestId msg) s, [], true⟩
    else
      match msg.response with
      | some r => ⟨eraseSlot t (effectiveRequestId msg), .resolved (effectiveRequestId msg) s r, [], true⟩
      | none =>
        ⟨eraseSlot t (effectiveRequestId msg), .droppedSender (effectiveRequestId msg) s, [.unhandledResponseText], true⟩

/-- One iteration of the `spawn_read_loop` while-let body. A text frame that
fails to decode logs "Error parsing response" and "Received non-response
message" and is dropped; Close and stream errors break the loop; a Pong
control frame removes and resolves the entry under `PING_REQ_ID` if present. -/
def listenerStep (t : PendingTable) : InboundFrame → StepResult
  | .text raw =>
    match decodeResponseMsg raw with
    | none => ⟨t, .noDelivery, [.parseError, .nonResponseText], true⟩
    | some msg => dispatchDecoded t msg
  | .malformedText => ⟨t, .noDelivery, [.parseError, .nonResponseText], true⟩
  | .close => ⟨t, .noDelivery, [.connectionClosed], false⟩
  | .pong =>
    match lookupSlot t PING_REQ_ID with
    | some s => ⟨eraseSlot t PING_REQ_ID, .resolved PING_REQ_ID s .Pong, [], true⟩
    | none => ⟨t, .noDelivery, [], true⟩
  | .otherFrame => ⟨t, .noDelivery, [.otherMessage], true⟩
  | .streamError => ⟨t, .noDelivery, [.streamError], false⟩

def Delivery.events : Delivery → List (Int × Nat × ResponseType)
  | .resolved i s v => [(i, s, v)]
  | _ => []

structure RunResult where
  pending : PendingTable
  events : List (Int × Nat × ResponseType)
deriving DecidableEq

/-- The read loop over a list of inbound frames, collecting every resolution
event `(id, slot, value)` until the loop breaks or the frames run out. -/
def runListener (t : PendingTable) : List InboundFrame → RunResult
  | [] => ⟨t, []⟩
  | f :: fs =>
    if (listenerStep t f).continueLoop then
      ⟨(runListener (listenerStep t f).pending fs).pending,
       (listenerStep t f).delivery.events ++ (runListener (listenerStep t f).pending fs).events⟩
    else
      ⟨(listenerStep t f).pending, (listenerStep t f).delivery.events⟩

/-! ## The request-id generator

`request_id: AtomicI32::new(1)`; `next_request_id` is
`self.request_id.fetch_add(1, SeqCst)`, which returns the value held
*before* the addition, wrapping in two's-complement i32 arithmetic.
Atomic increments serialize, so a run of calls is modelled by its index. -/

/-- Two's-complement wrap to signed 32 bits (2^31 = 2147483648). -/
def wrapI32 (z : Int) : Int := (z + 2147483648) % 4294967296 - 2147483648

/-- `AtomicI32::new(1)` in `LibSqlClient::connect`. -/
def REQUEST_ID_SEED : Int := 1

/-- The value the n-th call (0-indexed) of `next_request_id` returns: the
counter held `seed + n` before that call's `fetch_add(1)`. -/
def nthRequestId (n : Nat) : Int := wrapI32 (REQUEST_ID_SEED + n)

/-! ## Operation step order

The statement order of each awaited operation in `LibSqlClient`, restricted
to the actions the correlation contract speaks about: generating an id,
writing to the outbound half, inserting the oneshot sender into `pending`,
and awaiting the receiver. Each list transcribes one function top to bottom. -/

inductive WsAction
  | sendText (ty : String)
  | sendPing
  | insertSlot (request_id : Int)
  | awaitSlot (request_id : Int)
  | freshRequestId
  | recordInstant
deriving DecidableEq

/-- `send_hello`: serialize + `writer.send`, then `pending.insert(HELLO_REQ_ID, tx)`,
then `rx.await`. -/
def send_hello_trace : List WsAction :=
  [.sendText "hello", .insertSlot HELLO_REQ_ID, .awaitSlot HELLO_REQ_ID]

/-- `open_stream`: `next_request_id`, serialize + `writer.send`, then
`pending.insert(request_id, tx)`, then `rx.await`. -/
def open_stream_trace (request_id : Int) : List WsAction :=
  [.freshRequestId, .sendText "request", .insertSlot request_id, .awaitSlot request_id]

/-- `send_ping`: `writer.send(Message::Ping)`, then `pending.insert(PING_REQ_ID, tx)`,
then `Instant::now()`, then `rx.await`. -/
def send_ping_trace : List WsAction :=
  [.sendPing, .insertSlot PING_REQ_ID, .recordInstant, .awaitSlot PING_REQ_ID]

/-- `execute_statement`: `next_request_id`, serialize + `writer.send`, then
`pending.insert(request_id, tx)`, then `rx.await`. -/
def execute_statement_trace (request_id : Int) : List WsAction :=
  [.freshRequestId, .sendText "request", .insertSlot request_id, .awaitSlot request_id]

def WsAction.isSend : WsAction → Bool
  | .sendText _ => true
  | .sendPing => true
  | _ => false

def WsAction.isInsert : WsAction → Bool
  | .insertSlot _ => true
  | _ => false

def WsAction.isAwait : WsAction → Bool
  | .awaitSlot _ => true
  | _ => false

/-- Positions (0-based statement indices) of the outbound writes in a trace. -/
def sendPositions (tr : List WsAction) : List Nat :=
  (tr.enum.filter (fun p => p.2.isSend)).map Prod.fst

/-- Positions of the correlation-table inserts in a trace. -/
def insertPositions (tr : List WsAction) : List Nat :=
  (tr.enum.filter (fun p => p.2.isInsert)).map Prod.fst

/-- Positions of the receiver awaits in a trace. -/
def awaitPositions (tr : List WsAction) : List Nat :=
  (tr.enum.filter (fun p => p.2.isAwait)).map Prod.fst

/-- The ordering the correlation contract asserts: every insert of the
delivery slot occurs strictly before every write to the outbound stream. -/
def insertPrecedesSend (tr : List WsAction) : Prop :=
  ∀ i ∈ insertPositions tr, ∀ j ∈ sendPositions tr, i < j

/-- The ordering the code actually has: every write to the outbound stream
occurs strictly before every insert of the delivery slot. -/
def sendPrecedesInsert (tr : List WsAction) : Prop :=
  ∀ i ∈ sendPositions tr, ∀ j ∈ insertPositions tr, i < j

/-- Inserts happen before the caller starts awaiting the receiver. -/
def insertPrecedesAwait (tr : List WsAction) : Prop :=
  ∀ i ∈ insertPositions tr, ∀ j ∈ awaitPositions tr, i < j

/-! ## Post-await dispatch

What a caller observes of its oneshot receiver, and the match each operation
runs on the awaited value. `rx.await` yields `Err(Canceled)` when the sender
was dropped without a value; the `?` on it propagates that as the call's
error. -/

inductive AwaitOutcome
  | value (v : ResponseType)
  | canceled
deriving DecidableEq

/-- What awaiting slot `s` observes of a listener step's delivery:
a sent value, a cancellation (sender dropped), or still pending. -/
def awaitFromDelivery (d : Delivery) (s : Nat) : Option AwaitOutcome :=
  match d with
  | .resolved _ s1 v => if s1 = s then some (.value v) else none
  | .droppedSender _ s1 => if s1 = s then some .canceled else none
  | .noDelivery => none

/-- Result of `execute_statement` after its await. -/
inductive ExecuteOutcome
  | ok (result : StmtResult)
  | queryError (message : String)
  | unexpectedResponse
  | awaitCanceled
deriving DecidableEq

/-- The `match rx.await? { ... }` tail of `execute_statement`:
`ExecuteResp { result } => Ok(result)`,
`Error { message } => Err(eyre!("{}", message))`, catch-all a fixed error;
a cancelled receiver propagates through `?` before the match. -/
def execute_statement_dispatch : AwaitOutcome → ExecuteOutcome
  | .canceled => .awaitCanceled
  | .value (.ExecuteResp r) => .ok r
  | .value (.Error m) => .queryError m
  | .value _ => .unexpectedResponse

/-- Result of `open_stream` after its await. -/
inductive OpenStreamOutcome
  | ok
  | failed (message : String)
  | awaitCanceled
deriving DecidableEq

/-- The `match rx.await? { ... }` tail of `open_stream`:
`OpenStreamResp {} => Ok(())`, every other value the fixed
"Unexpected response for open_stream" error. -/
def open_stream_dispatch : AwaitOutcome → OpenStreamOutcome
  | .canceled => .awaitCanceled
  | .value .OpenStreamResp => .ok
  | .value _ => .failed "Unexpected response for open_stream"

/-- Raw wire form of a server execute reply carrying `request_id = i` and a
result payload, as produced for `{"type":"response_ok","request_id":i,
"response":{"type":"execute","result":...}}`. -/
def execReplyRaw (i : Int) (r : StmtResult) : RawResponseMsg :=
  { ty := "response_ok", request_id := some i,
    response := some { tag := "execute", message := none, result := some r },
    error := none }

def execReplyFrame (i : Int) (r : StmtResult) : InboundFrame :=
  .text (execReplyRaw i r)

/-! ## Concrete sample data (used to evaluate the theorems on closed inputs) -/

/-- A concrete statement result: one column "1", one integer row. -/
def sampleResultA : StmtResult :=
  ⟨[⟨some "1", none⟩], [[.Integer "1"]], 0, 1, 0, "0.1"⟩

/-- A second, distinct concrete statement result. -/
def sampleResultB : StmtResult :=
  ⟨[], [], 2, 0, 2, "0.2"⟩

/-- A concrete inbound frame whose response payload carries the unknown tag
"batch". -/
def rawUnknownTagFrame : RawResponseMsg :=
  { ty := "response_ok", request_id := some 5,
    response := some { tag := "batch", message := none, result := none },
    error := none }

/-- A well-formed reply for id 7 with no payload: decodes fine, and is an
orphan whenever no entry for 7 is pending. -/
def rawOrphanFrame : RawResponseMsg :=
  { ty := "response_ok", request_id := some 7, response := none, error := none }

/-- A server error reply for id 5 with message "boom". -/
def rawErrorFrame5 : RawResponseMsg :=
  { ty := "response_error", request_id := some 5, response := none,
    error := some ⟨"boom"⟩ }

/-- A server error reply for id 3 with message "oops". -/
def rawErrorFrame3 : RawResponseMsg :=
  { ty := "response_error", request_id := some 3, response := none,
    error := some ⟨"oops"⟩ }

/-- A response_error reply for id 9 that carries no error object. -/
def rawErrorlessErrorFrame : RawResponseMsg :=
  { ty := "response_error", request_id := some 9, response := none, error := none }

/-- A hello_ok reply with the request id field absent, as observed on the
wire. -/
def rawHelloOkNoId : RawResponseMsg :=
  { ty := "hello_ok", request_id := none, response := none, error := none }

/-! ## Lemmas about the correlation table -/

theorem lookupSlot_eq_none_of_not_mem (t : PendingTable) (i : Int)
    (h : i ∉ t.map Prod.fst) : lookupSlot t i = none := by
  induction t with
  | nil => rfl
  | cons e rest ih =>
    simp only [List.map_cons, List.mem_cons] at h
    push_neg at h
    have he : e.1 ≠ i := fun hh => h.1 hh.symm
    simp [lookupSlot, he, ih h.2]

theorem eraseSlot_sublist (t : PendingTable) (i : Int) : (eraseSlot t i).Sublist t := by
  induction t with
  | nil => simp [eraseSlot]
  | cons e rest ih =>
    by_cases h : e.1 = i
    · simp [eraseSlot, h]
    · simpa [eraseSlot, h] using ih.cons₂ e

theorem keysNodup_eraseSlot (t : PendingTable) (i : Int) (h : keysNodup t) :
    keysNodup (eraseSlot t i) :=
  h.sublist ((eraseSlot_sublist t i).map Prod.fst)

theorem lookupSlot_eraseSlot_ne (t : PendingTable) (i j : Int) (h : j ≠ i) :
    lookupSlot (eraseSlot t i) j = lookupSlot t j := by
  induction t with
  | nil => rfl
  | cons e rest ih =>
    by_cases he : e.1 = i
    · have hej : e.1 ≠ j := fun hh => h (hh ▸ he)
      simp only [eraseSlot, if_pos he, lookupSlot, if_neg hej]
    · simp only [eraseSlot, if_neg he, lookupSlot]
      by_cases hej : e.1 = j
      · simp [if_pos hej]
      · simp [if_neg hej, ih]

theorem lookupSlot_eraseSlot_self (t : PendingTable) (i : Int) (h : keysNodup t) :
    lookupSlot (eraseSlot t i) i = none := by
  induction t with
  | nil => rfl
  | cons e rest ih =>
    simp only [keysNodup, List.map_cons, List.nodup_cons] at h
    by_cases he : e.1 = i
    · have : i ∉ rest.map Prod.fst := he ▸ h.1
      simp [eraseSlot, he, lookupSlot_eq_none_of_not_mem rest i this]
    · simp [eraseSlot, he, lookupSlot, ih h.2]

theorem lookupSlot_eraseSlot_some (t : PendingTable) (i j : Int) (s : Nat)
    (h : keysNodup t) (hl : lookupSlot (eraseSlot t i) j = some s) :
    lookupSlot t j = some s := by
  by_cases hij : j = i
  · subst hij
    rw [lookupSlot_eraseSlot_self t j h] at hl
    cases hl
  · rw [lookupSlot_eraseSlot_ne t i j hij] at hl
    exact hl

/-! ## Lemmas about the decode step -/

theorem decodeResponseMsg_fields (raw : RawResponseMsg) (msg : ResponseMsg)
    (h : decodeResponseMsg raw = some msg) :
    msg.ty = raw.ty ∧ msg.request_id = raw.request_id ∧ msg.error = raw.error := by
  cases hr : raw.response with
  | none =>
    simp only [decodeResponseMsg, hr] at h
    injection h with h2
    subst h2
    exact ⟨rfl, rfl, rfl⟩
  | some p =>
    simp only [decodeResponseMsg, hr] at h
    cases hd : decodeResponseType p with
    | none => rw [hd] at h; cases h
    | some v =>
      rw [hd] at h
      injection h with h2
      subst h2
      exact ⟨rfl, rfl, rfl⟩

theorem decodeResponseMsg_set_id (raw : RawResponseMsg) (x : Option Int) :
    decodeResponseMsg { raw with request_id := x }
      = (decodeResponseMsg raw).map (fun m => { m with request_id := x }) := by
  unfold decodeResponseMsg
  cases hr : raw.response with
  | none => rfl
  | some p => cases hd : decodeResponseType p <;> simp [hd]

/-! ## Characterization of one listener step -/

theorem dispatchDecoded_cases (t : PendingTable) (msg : ResponseMsg) :
    ((dispatchDecoded t msg).pending = t ∧ (dispatchDecoded t msg).delivery = .noDelivery)
    ∨ ∃ i s, lookupSlot t i = some s ∧ (dispatchDecoded t msg).pending = eraseSlot t i ∧
        ((∃ v, (dispatchDecoded t msg).delivery = .resolved i s v)
          ∨ (dispatchDecoded t msg).delivery = .droppedSender i s) := by
  cases hl : lookupSlot t (effectiveRequestId msg) with
  | none => left; simp [dispatchDecoded, hl]
  | some s =>
    right
    refine ⟨effectiveRequestId msg, s, hl, ?_⟩
    by_cases h1 : msg.ty = "hello_ok"
    · simp [dispatchDecoded, hl, h1]
    · by_cases h2 : msg.ty = "response_error"
      · cases he : msg.error with
        | some err => simp [dispatchDecoded, hl, h1, h2, he]
        | none => simp [dispatchDecoded, hl, h1, h2, he]
      · cases hr : msg.response with
        | some r => simp [dispatchDecoded, hl, h1, h2, hr]
        | none => simp [dispatchDecoded, hl, h1, h2, hr]

theorem listenerStep_cases (t : PendingTable) (f : InboundFrame) :
    ((listenerStep t f).pending = t ∧ (listenerStep t f).delivery = .noDelivery)
    ∨ ∃ i s, lookupSlot t i = some s ∧ (listenerStep t f).pending = eraseSlot t i ∧
        ((∃ v, (listenerStep t f).delivery = .resolved i s v)
          ∨ (listenerStep t f).delivery = .droppedSender i s) := by
  cases f with
  | text raw =>
    cases hd : decodeResponseMsg raw with
    | none => left; simp [listenerStep, hd]
    | some msg =>
      have := dispatchDecoded_cases t msg
      simpa [listenerStep, hd] using this
  | malformedText => left; simp [listenerStep]
  | close => left; simp [listenerStep]
  | pong =>
    cases hl : lookupSlot t PING_REQ_ID with
    | none => left; simp [listenerStep, hl]
    | some s =>
      right
      exact ⟨PING_REQ_ID, s, hl, by simp [listenerStep, hl], .inl ⟨.Pong, by simp [listenerStep, hl]⟩⟩
  | otherFrame => left; simp [listenerStep]
  | streamError => left; simp [listenerStep]

/-! ## Run-level lemmas -/

theorem runListener_events_sound (fs : List InboundFrame) (t : PendingTable) (h : keysNodup t) :
    ∀ e ∈ (runListener t fs).events, lookupSlot t e.1 = some e.2.1 := by
  induction fs generalizing t with
  | nil => intro e he; simp [runListener] at he
  | cons f fs ih =>
    intro e he
    rcases listenerStep_cases t f with ⟨hp, hdel⟩ | ⟨i, s, hl, hp, hd⟩
    · by_cases hc : (listenerStep t f).continueLoop
      · simp only [runListener, if_pos hc, hdel, hp, Delivery.events, List.nil_append] at he
        exact ih t h e he
      · simp [runListener, if_neg hc, hdel, Delivery.events] at he
    · have hkey : keysNodup (eraseSlot t i) := keysNodup_eraseSlot t i h
      by_cases hc : (listenerStep t f).continueLoop
      · rcases hd with ⟨v, hdv⟩ | hdv
        · simp only [runListener, if_pos hc, hdv, hp, Delivery.events, List.cons_append,
            List.nil_append, List.mem_cons] at he
          rcases he with rfl | he
          · simpa using hl
          · exact lookupSlot_eraseSlot_some t i e.1 e.2.1 h (ih _ hkey e he)
        · simp only [runListener, if_pos hc, hdv, hp, Delivery.events, List.nil_append] at he
          exact lookupSlot_eraseSlot_some t i e.1 e.2.1 h (ih _ hkey e he)
      · rcases hd with ⟨v, hdv⟩ | hdv
        · simp only [runListener, if_neg hc, hdv, Delivery.events, List.mem_singleton] at he
          subst he
          simpa using hl
        · simp [runListener, if_neg hc, hdv, Delivery.events] at he

theorem runListener_ids_nodup (fs : List InboundFrame) (t : PendingTable) (h : keysNodup t) :
    ((runListener t fs).events.map (fun e => e.1)).Nodup := by
  induction fs generalizing t with
  | nil => simp [runListener]
  | cons f fs ih =>
    rcases listenerStep_cases t f with ⟨hp, hdel⟩ | ⟨i, s, hl, hp, hd⟩
    · by_cases hc : (listenerStep t f).continueLoop
      · simp only [runListener, if_pos hc, hdel, hp, Delivery.events, List.nil_append]
        exact ih t h
      · simp [runListener, if_neg hc, hdel, Delivery.events]
    · have hkey : keysNodup (eraseSlot t i) := keysNodup_eraseSlot t i h
      by_cases hc : (listenerStep t f).continueLoop
      · rcases hd with ⟨v, hdv⟩ | hdv
        · simp only [runListener, if_pos hc, hdv, hp, Delivery.events, List.cons_append,
            List.nil_append, List.map_cons, List.nodup_cons]
          constructor
          · intro hmem
            rcases List.mem_map.mp hmem with ⟨e, he, hei⟩
            have hs := runListener_events_sound fs (eraseSlot t i) hkey e he
            rw [hei] at hs
            rw [lookupSlot_eraseSlot_self t i h] at hs
            cases hs
          · exact ih _ hkey
        · simp only [runListener, if_pos hc, hdv, hp, Delivery.events, List.nil_append]
          exact ih _ hkey
      · rcases hd with ⟨v, hdv⟩ | hdv
        · simp [runListener, if_neg hc, hdv, Delivery.events]
        · simp [runListener, if_neg hc, hdv, Delivery.events]

/-! ## Execute-reply step lemmas -/

theorem listenerStep_execReply_hit (t : PendingTable) (i : Int) (r : StmtResult) (s : Nat)
    (hl : lookupSlot t i = some s) :
    listenerStep t (execReplyFrame i r)
      = ⟨eraseSlot t i, .resolved i s (.ExecuteResp r), [], true⟩ := by
  have hdec : decodeResponseMsg (execReplyRaw i r)
      = some ⟨"response_ok", some i, some (.ExecuteResp r), none⟩ := rfl
  have heff : effectiveRequestId ⟨"response_ok", some i, some (.ExecuteResp r), none⟩ = i := rfl
  simp [listenerStep, execReplyFrame, hdec, dispatchDecoded, heff, hl]

theorem listenerStep_execReply_miss (t : PendingTable) (i : Int) (r : StmtResult)
    (hl : lookupSlot t i = none) :
    listenerStep t (execReplyFrame i r) = ⟨t, .noDelivery, [], true⟩ := by
  have hdec : decodeResponseMsg (execReplyRaw i r)
      = some ⟨"response_ok", some i, some (.ExecuteResp r), none⟩ := rfl
  have heff : effectiveRequestId ⟨"response_ok", some i, some (.ExecuteResp r), none⟩ = i := rfl
  simp [listenerStep, execReplyFrame, hdec, dispatchDecoded, heff, hl]

/-- When a pending entry for the (defaulted) id exists, any decoded frame
removes exactly that entry, whatever the classification arm. -/
theorem dispatchDecoded_pending_hit (t : PendingTable) (msg : ResponseMsg) (s : Nat)
    (hl : lookupSlot t (effectiveRequestId msg) = some s) :
    (dispatchDecoded t msg).pending = eraseSlot t (effectiveRequestId msg) := by
  by_cases h1 : msg.ty = "hello_ok"
  · simp [dispatchDecoded, hl, h1]
  · by_cases h2 : msg.ty = "response_error"
    · cases he : msg.error with
      | some err => simp [dispatchDecoded, hl, h1, h2, he]
      | none => simp [dispatchDecoded, hl, h1, h2, he]
    · cases hr : msg.response with
      | some r => simp [dispatchDecoded, hl, h1, h2, hr]
      | none => simp [dispatchDecoded, hl, h1, h2, hr]

/-- `dispatchDecoded` only consults the effective id, the outer type, the
error object and the payload of its message. -/
theorem dispatchDecoded_congr (t : PendingTable) (m1 m2 : ResponseMsg)
    (h1 : effectiveRequestId m1 = effectiveRequestId m2)
    (h2 : m1.ty = m2.ty) (h3 : m1.error = m2.error) (h4 : m1.response = m2.response) :
    dispatchDecoded t m1 = dispatchDecoded t m2 := by
  unfold dispatchDecoded
  rw [h1, h2, h3, h4]

/-! ## The request-id generator below the wrap bound -/

theorem nthRequestId_no_wrap (k : Nat) (hk : k < 2147483647) :
    nthRequestId k = REQUEST_ID_SEED + k := by
  unfold nthRequestId wrapI32 REQUEST_ID_SEED
  have hk2 : (k : Int) < 2147483647 := by exact_mod_cast hk
  have h1 : (0 : Int) ≤ 1 + (k : Int) + 2147483648 := by positivity
  have h2 : (1 : Int) + (k : Int) + 2147483648 < 4294967296 := by omega
  rw [Int.emod_eq_of_lt h1 h2]
  omega

/-! ## Claim theorems -/

/-- C1 counterexample: the very first call of next_request_id returns 1 — the
reserved handshake id — not 2, because the counter is seeded at 1 and
fetch_add returns the pre-increment value. -/
theorem nextRequestId_first_generated_is_one :
    nthRequestId 0 = 1 ∧ nthRequestId 0 = HELLO_REQ_ID ∧ nthRequestId 0 ≠ 2 := by
  refine ⟨by decide, by decide, by decide⟩

/-- C1 (amended): next_request_id is an atomic fetch-add returning the
previous value of a counter seeded at 1, so the first generated id is 1 (the
reserved handshake id); below the i32 wrap bound the n-th id equals 1 + n,
ids are strictly increasing and pairwise distinct, and -1 is never
returned. -/
theorem nextRequestId_seeded_at_one_monotone (m n : Nat) (hmn : m < n)
    (hn : n < 2147483647) :
    nthRequestId 0 = HELLO_REQ_ID
    ∧ nthRequestId m = REQUEST_ID_SEED + m
    ∧ nthRequestId n = REQUEST_ID_SEED + n
    ∧ nthRequestId m < nthRequestId n
    ∧ nthRequestId m ≠ nthRequestId n
    ∧ nthRequestId n ≠ PING_REQ_ID := by
  have h0 : nthRequestId 0 = REQUEST_ID_SEED + ((0 : Nat) : Int) :=
    nthRequestId_no_wrap 0 (by omega)
  have hm : nthRequestId m = REQUEST_ID_SEED + m := nthRequestId_no_wrap m (by omega)
  have hn2 : nthRequestId n = REQUEST_ID_SEED + n := nthRequestId_no_wrap n hn
  have hcast : (m : Int) < n := by exact_mod_cast hmn
  refine ⟨?_, hm, hn2, ?_, ?_, ?_⟩
  · rw [h0]; rfl
  · rw [hm, hn2]; unfold REQUEST_ID_SEED; omega
  · rw [hm, hn2]; unfold REQUEST_ID_SEED; omega
  · rw [hn2]; unfold REQUEST_ID_SEED PING_REQ_ID; omega

/-- C1 witness: the amended statement at m = 0, n = 5. -/
theorem nextRequestId_seeded_at_one_monotone_witness :
    nthRequestId 0 = HELLO_REQ_ID
    ∧ nthRequestId 0 = REQUEST_ID_SEED + ((0 : Nat) : Int)
    ∧ nthRequestId 5 = REQUEST_ID_SEED + ((5 : Nat) : Int)
    ∧ nthRequestId 0 < nthRequestId 5
    ∧ nthRequestId 0 ≠ nthRequestId 5
    ∧ nthRequestId 5 ≠ PING_REQ_ID :=
  nextRequestId_seeded_at_one_monotone 0 5 (by decide) (by decide)

/-- C2 counterexample: in send_hello (and likewise execute_statement with a
generated id) the request is written to the outbound stream strictly before
the delivery slot is inserted, so no insert precedes the send. -/
theorem ws_insert_before_send_refuted :
    ¬ insertPrecedesSend send_hello_trace
    ∧ ¬ insertPrecedesSend (execute_statement_trace 2) := by
  constructor
  · intro hcl
    have h10 := hcl 1 (by decide) 0 (by decide)
    exact absurd h10 (by decide)
  · intro hcl
    have h21 := hcl 2 (by decide) 1 (by decide)
    exact absurd h21 (by decide)

/-- C2 (amended): in every awaited operation (handshake, openStream, execute,
ping) the request is written to the outbound stream before the delivery slot
for its request id is inserted into the correlation table; the insert still
precedes the caller's await of that slot. -/
theorem ws_send_then_insert_then_await :
    sendPrecedesInsert send_hello_trace ∧ insertPrecedesAwait send_hello_trace
    ∧ (∀ rid : Int,
        sendPrecedesInsert (open_stream_trace rid) ∧ insertPrecedesAwait (open_stream_trace rid))
    ∧ (∀ rid : Int,
        sendPrecedesInsert (execute_statement_trace rid)
          ∧ insertPrecedesAwait (execute_statement_trace rid))
    ∧ sendPrecedesInsert send_ping_trace ∧ insertPrecedesAwait send_ping_trace := by
  refine ⟨?_, ?_, fun rid => ⟨?_, ?_⟩, fun rid => ⟨?_, ?_⟩, ?_, ?_⟩ <;>
    simp [sendPrecedesInsert, insertPrecedesAwait, sendPositions, insertPositions,
      awaitPositions, send_hello_trace, open_stream_trace, execute_statement_trace,
      send_ping_trace, List.enum, WsAction.isSend, WsAction.isInsert, WsAction.isAwait]

/-- C2 witness: the amended ordering evaluated on the execute trace with a
concrete generated id. -/
theorem ws_send_then_insert_then_await_witness :
    sendPrecedesInsert (execute_statement_trace 2)
      ∧ insertPrecedesAwait (execute_statement_trace 2) :=
  ws_send_then_insert_then_await.2.2.2.1 2

/-- C5: execute_statement returns the StatementExecuted payload on success and
fails with exactly the server's message on a ProtocolError envelope. -/
theorem execute_outcome_matches_envelope :
    (∀ r : StmtResult, execute_statement_dispatch (.value (.ExecuteResp r)) = .ok r)
    ∧ (∀ m : String, execute_statement_dispatch (.value (.Error m)) = .queryError m) :=
  ⟨fun _ => rfl, fun _ => rfl⟩

/-- C5 witness: evaluated at a concrete result and a concrete message. -/
theorem execute_outcome_matches_envelope_witness :
    execute_statement_dispatch (.value (.ExecuteResp sampleResultA)) = .ok sampleResultA
    ∧ execute_statement_dispatch (.value (.Error "boom")) = .queryError "boom" :=
  ⟨execute_outcome_matches_envelope.1 sampleResultA,
   execute_outcome_matches_envelope.2 "boom"⟩

/-- C10: open_stream maps every envelope other than StreamOpened — a server
ProtocolError included — to the fixed "Unexpected response for open_stream"
error, discarding the server message; execute_statement, in contrast,
forwards the message. -/
theorem open_stream_discards_server_message (v : ResponseType)
    (hv : v ≠ ResponseType.OpenStreamResp) :
    open_stream_dispatch (.value v) = .failed "Unexpected response for open_stream"
    ∧ (∀ m : String, execute_statement_dispatch (.value (.Error m)) = .queryError m) := by
  constructor
  · cases v with
    | OpenStreamResp => exact absurd rfl hv
    | Pong => rfl
    | Error m => rfl
    | HelloOk => rfl
    | ExecuteResp r => rfl
  · intro m; rfl

/-- C10 witness: a ProtocolError with message "boom" observed by open_stream
yields the fixed error, the message gone. -/
theorem open_stream_discards_server_message_witness :
    open_stream_dispatch (.value (.Error "boom"))
      = .failed "Unexpected response for open_stream" :=
  (open_stream_discards_server_message (.Error "boom") (by simp)).1

/-- C4 counterexample: a response payload carrying the unknown tag "batch"
fails the decode of the whole frame — the decoder yields no envelope at all,
and the enum has no Unrecognized variant to yield. -/
theorem unknown_tag_fails_whole_frame :
    decodeResponseMsg rawUnknownTagFrame = none := by
  decide

/-- C4 (amended): an inbound text frame whose response payload carries a tag
outside the decoded set ("Pong", "Error", "hello_ok", "open_stream",
"execute") fails to decode as a whole frame; the parse failure is logged,
nothing is delivered, the table is unchanged and the listener continues. -/
theorem unknown_tag_frame_logged_dropped (t : PendingTable) (raw : RawResponseMsg)
    (p : RawResponsePayload) (hp : raw.response = some p)
    (h1 : p.tag ≠ "Pong") (h2 : p.tag ≠ "Error") (h3 : p.tag ≠ "hello_ok")
    (h4 : p.tag ≠ "open_stream") (h5 : p.tag ≠ "execute") :
    decodeResponseMsg raw = none
    ∧ listenerStep t (.text raw) = ⟨t, .noDelivery, [.parseError, .nonResponseText], true⟩ := by
  have hd : decodeResponseMsg raw = none := by
    simp [decodeResponseMsg, hp, decodeResponseType, h1, h2, h3, h4, h5]
  exact ⟨hd, by simp [listenerStep, hd]⟩

/-- C4 witness: the amended statement at the concrete "batch" frame against a
table with one pending entry. -/
theorem unknown_tag_frame_logged_dropped_witness :
    decodeResponseMsg rawUnknownTagFrame = none
    ∧ listenerStep [(5, 50)] (.text rawUnknownTagFrame)
        = ⟨[(5, 50)], .noDelivery, [.parseError, .nonResponseText], true⟩ :=
  unknown_tag_frame_logged_dropped [(5, 50)] rawUnknownTagFrame
    ⟨"batch", none, none⟩ rfl (by decide) (by decide) (by decide) (by decide) (by decide)

/-- C6: a decoded reply whose (defaulted) id has no pending entry leaves the
table unchanged, delivers nothing, logs nothing and keeps the loop running;
and across any run from a duplicate-free table, no id is ever delivered
twice — the first removal wins and later replies under the same id find no
entry. -/
theorem orphan_dropped_and_delivered_at_most_once :
    (∀ (t : PendingTable) (raw : RawResponseMsg) (msg : ResponseMsg),
        decodeResponseMsg raw = some msg →
        lookupSlot t (effectiveRequestId msg) = none →
        listenerStep t (.text raw) = ⟨t, .noDelivery, [], true⟩)
    ∧ (∀ (t : PendingTable) (fs : List InboundFrame), keysNodup t →
        ((runListener t fs).events.map (fun e => e.1)).Nodup) := by
  constructor
  · intro t raw msg hd hl
    simp [listenerStep, hd, dispatchDecoded, hl]
  · intro t fs h
    exact runListener_ids_nodup fs t h

/-- C6 witness: a reply for id 7 against a table holding only id 5 is dropped
with no effect; and two successive error replies for id 5 deliver once — the
second finds no entry — so the delivered ids are duplicate-free. -/
theorem orphan_dropped_witness :
    listenerStep [(5, 50)] (.text rawOrphanFrame) = ⟨[(5, 50)], .noDelivery, [], true⟩
    ∧ (((runListener [(5, 50)] [.text rawErrorFrame5, .text rawErrorFrame5]).events.map
        (fun e => e.1)).Nodup) :=
  ⟨orphan_dropped_and_delivered_at_most_once.1 [(5, 50)] rawOrphanFrame
      ⟨"response_ok", some 7, none, none⟩ rfl (by decide),
   orphan_dropped_and_delivered_at_most_once.2 [(5, 50)]
      [.text rawErrorFrame5, .text rawErrorFrame5] (by decide)⟩

/-- C7: a response_error reply carrying id X removes and resolves exactly the
entry for X with the server's message; the lookup of every other id is
unchanged, so every other pending entry remains pending. -/
theorem protocol_error_touches_only_its_id (t : PendingTable) (raw : RawResponseMsg)
    (msg : ResponseMsg) (err : ErrorType) (s : Nat)
    (hd : decodeResponseMsg raw = some msg)
    (hty : msg.ty = "response_error")
    (herr : msg.error = some err)
    (hs : lookupSlot t (effectiveRequestId msg) = some s) :
    listenerStep t (.text raw)
      = ⟨eraseSlot t (effectiveRequestId msg),
          .resolved (effectiveRequestId msg) s (.Error err.message), [], true⟩
    ∧ ∀ j : Int, j ≠ effectiveRequestId msg →
        lookupSlot (eraseSlot t (effectiveRequestId msg)) j = lookupSlot t j := by
  constructor
  · simp [listenerStep, hd, dispatchDecoded, hs, hty, herr]
  · intro j hj
    exact lookupSlot_eraseSlot_ne t (effectiveRequestId msg) j hj

/-- C7 witness: a table holding ids 3 and 4; the error reply for 3 resolves
slot 30 with "oops" and the lookup of 4 is untouched. -/
theorem protocol_error_touches_only_its_id_witness :
    listenerStep [(3, 30), (4, 40)] (.text rawErrorFrame3)
      = ⟨[(4, 40)], .resolved 3 30 (.Error "oops"), [], true⟩
    ∧ lookupSlot (eraseSlot [(3, 30), (4, 40)] 3) 4 = lookupSlot [(3, 30), (4, 40)] 4 := by
  have h := protocol_error_touches_only_its_id [(3, 30), (4, 40)] rawErrorFrame3
    ⟨"response_error", some 3, none, some ⟨"oops"⟩⟩ ⟨"oops"⟩ 30 (by decide) rfl rfl (by decide)
  exact ⟨h.1.trans (by decide), h.2 4 (by decide)⟩

/-- C8: a successfully decoded frame with the request id field absent is
handled exactly like the same frame carrying id 1: the effective id is the
reserved handshake id, a pending entry under 1 is consumed, and a hello_ok
frame resolves that entry with the handshake acknowledgement. -/
theorem absent_id_defaults_to_handshake (t : PendingTable) (raw : RawResponseMsg)
    (msg : ResponseMsg)
    (hd : decodeResponseMsg raw = some msg) (hid : raw.request_id = none) :
    listenerStep t (.text raw)
      = listenerStep t (.text { raw with request_id := some HELLO_REQ_ID })
    ∧ effectiveRequestId msg = HELLO_REQ_ID
    ∧ (∀ s, lookupSlot t HELLO_REQ_ID = some s →
        (listenerStep t (.text raw)).pending = eraseSlot t HELLO_REQ_ID)
    ∧ (∀ s, lookupSlot t HELLO_REQ_ID = some s → msg.ty = "hello_ok" →
        (listenerStep t (.text raw)).delivery = .resolved HELLO_REQ_ID s .HelloOk) := by
  obtain ⟨hty0, hrid, herr0⟩ := decodeResponseMsg_fields raw msg hd
  have hmid : msg.request_id = none := by rw [hrid, hid]
  have heff : effectiveRequestId msg = HELLO_REQ_ID := by
    simp [effectiveRequestId, hmid]
  have hls : listenerStep t (.text raw) = dispatchDecoded t msg := by
    simp [listenerStep, hd]
  have hd2 : decodeResponseMsg { raw with request_id := some HELLO_REQ_ID }
      = some { msg with request_id := some HELLO_REQ_ID } := by
    rw [decodeResponseMsg_set_id, hd]
    rfl
  refine ⟨?_, heff, ?_, ?_⟩
  · rw [hls, show listenerStep t (.text { raw with request_id := some HELLO_REQ_ID })
        = dispatchDecoded t { msg with request_id := some HELLO_REQ_ID } from by
          simp [listenerStep, hd2]]
    exact dispatchDecoded_congr t msg _ (by rw [heff]; rfl) rfl rfl rfl
  · intro s hs
    rw [hls]
    have h3 := dispatchDecoded_pending_hit t msg s (by rw [heff]; exact hs)
    rw [heff] at h3
    exact h3
  · intro s hs hty
    rw [hls]
    simp [dispatchDecoded, heff, hs, hty]

/-- C8 witness: the hello_ok frame without an id against a table holding the
handshake entry (1, 11). -/
theorem absent_id_defaults_to_handshake_witness :
    listenerStep [(1, 11)] (.text rawHelloOkNoId)
      = listenerStep [(1, 11)] (.text { rawHelloOkNoId with request_id := some HELLO_REQ_ID })
    ∧ effectiveRequestId ⟨"hello_ok", none, none, none⟩ = HELLO_REQ_ID
    ∧ (listenerStep [(1, 11)] (.text rawHelloOkNoId)).pending = eraseSlot [(1, 11)] HELLO_REQ_ID
    ∧ (listenerStep [(1, 11)] (.text rawHelloOkNoId)).delivery
        = .resolved HELLO_REQ_ID 11 .HelloOk := by
  have h := absent_id_defaults_to_handshake [(1, 11)] rawHelloOkNoId
    ⟨"hello_ok", none, none, none⟩ rfl rfl
  exact ⟨h.1, h.2.1, h.2.2.1 11 (by decide), h.2.2.2 11 (by decide) rfl⟩

/-- C9: a response_error reply matching a pending id but carrying no error
object still removes the entry yet delivers nothing: the sender is dropped,
the caller's await observes cancellation, and execute_statement surfaces the
cancellation, which is not a QueryError — removal and delivery are separate
on this path. -/
theorem errorless_response_error_cancels_caller (t : PendingTable) (raw : RawResponseMsg)
    (msg : ResponseMsg) (s : Nat)
    (hd : decodeResponseMsg raw = some msg)
    (hty : msg.ty = "response_error") (herr : msg.error = none)
    (hs : lookupSlot t (effectiveRequestId msg) = some s) :
    listenerStep t (.text raw)
      = ⟨eraseSlot t (effectiveRequestId msg),
          .droppedSender (effectiveRequestId msg) s, [], true⟩
    ∧ awaitFromDelivery (.droppedSender (effectiveRequestId msg) s) s = some .canceled
    ∧ execute_statement_dispatch .canceled = .awaitCanceled
    ∧ ∀ m : String, ExecuteOutcome.awaitCanceled ≠ ExecuteOutcome.queryError m := by
  refine ⟨?_, by simp [awaitFromDelivery], rfl, by intro m; simp⟩
  simp [listenerStep, hd, dispatchDecoded, hs, hty, herr]

/-- C9 witness: the errorless response_error for id 9 against table [(9, 90)]:
the entry is removed, the sender dropped, the await cancelled. -/
theorem errorless_response_error_cancels_caller_witness :
    listenerStep [(9, 90)] (.text rawErrorlessErrorFrame)
      = ⟨[], .droppedSender 9 90, [], true⟩
    ∧ awaitFromDelivery (.droppedSender 9 90) 90 = some .canceled
    ∧ execute_statement_dispatch .canceled = .awaitCanceled := by
  have h := errorless_response_error_cancels_caller [(9, 90)] rawErrorlessErrorFrame
    ⟨"response_error", some 9, none, none⟩ 90 rfl rfl rfl (by decide)
  exact ⟨h.1.trans (by decide), h.2.1, h.2.2.1⟩

/-- C3: with pending execute calls registered under distinct ids, whatever
order the server's replies arrive in, every resolution event delivers to the
slot registered under the reply's own id exactly the result payload of the
reply carrying that id; no slot ever receives a reply carried under a
different id. -/
theorem execute_replies_pair_by_id (qs : List (Int × StmtResult)) (t : PendingTable)
    (ht : keysNodup t) (hq : (qs.map Prod.fst).Nodup) :
    (∀ p ∈ qs, ∀ s, lookupSlot t p.1 = some s →
        (p.1, s, ResponseType.ExecuteResp p.2)
          ∈ (runListener t (qs.map (fun q => execReplyFrame q.1 q.2))).events)
    ∧ (∀ e ∈ (runListener t (qs.map (fun q => execReplyFrame q.1 q.2))).events,
        lookupSlot t e.1 = some e.2.1
        ∧ ∃ r, (e.1, r) ∈ qs ∧ e.2.2 = ResponseType.ExecuteResp r) := by
  induction qs generalizing t with
  | nil =>
    constructor
    · intro p hp
      cases hp
    · intro e he
      simp [runListener] at he
  | cons q qs ih =>
    obtain ⟨i, r⟩ := q
    simp only [List.map_cons, List.nodup_cons] at hq
    obtain ⟨hqi, hqtail⟩ := hq
    cases hl : lookupSlot t i with
    | some s =>
      have hstep := listenerStep_execReply_hit t i r s hl
      have hkey : keysNodup (eraseSlot t i) := keysNodup_eraseSlot t i ht
      have hih := ih (eraseSlot t i) hkey hqtail
      have hrunev : (runListener t
            (execReplyFrame i r :: qs.map (fun q => execReplyFrame q.1 q.2))).events
          = (i, s, ResponseType.ExecuteResp r)
            :: (runListener (eraseSlot t i) (qs.map (fun q => execReplyFrame q.1 q.2))).events := by
        simp [runListener, hstep, Delivery.events]
      constructor
      · intro p hp s2 hs2
        rcases List.mem_cons.mp hp with rfl | hptail
        · rw [hl] at hs2
          injection hs2 with hss
          subst hss
          simp [hrunev]
        · have hne : p.1 ≠ i := by
            intro hpe
            exact hqi (hpe ▸ List.mem_map_of_mem Prod.fst hptail)
          have hs3 : lookupSlot (eraseSlot t i) p.1 = some s2 := by
            rw [lookupSlot_eraseSlot_ne t i p.1 hne]
            exact hs2
          have hmem := hih.1 p hptail s2 hs3
          simp only [List.map_cons, hrunev, List.mem_cons]
          exact Or.inr hmem
      · intro e he
        simp only [List.map_cons, hrunev, List.mem_cons] at he
        rcases he with rfl | hetail
        · exact ⟨by simpa using hl, ⟨r, List.mem_cons_self _ _, rfl⟩⟩
        · have hsound := hih.2 e hetail
          refine ⟨lookupSlot_eraseSlot_some t i e.1 e.2.1 ht hsound.1, ?_⟩
          obtain ⟨r2, hr1, hr2⟩ := hsound.2
          exact ⟨r2, List.mem_cons_of_mem _ hr1, hr2⟩
    | none =>
      have hstep := listenerStep_execReply_miss t i r hl
      have hih := ih t ht hqtail
      have hrunev : (runListener t
            (execReplyFrame i r :: qs.map (fun q => execReplyFrame q.1 q.2))).events
          = (runListener t (qs.map (fun q => execReplyFrame q.1 q.2))).events := by
        simp [runListener, hstep, Delivery.events]
      constructor
      · intro p hp s2 hs2
        rcases List.mem_cons.mp hp with rfl | hptail
        · rw [hl] at hs2
          cases hs2
        · simp only [List.map_cons, hrunev]
          exact hih.1 p hptail s2 hs2
      · intro e he
        simp only [List.map_cons, hrunev] at he
        have hsound := hih.2 e he
        refine ⟨hsound.1, ?_⟩
        obtain ⟨r2, hr1, hr2⟩ := hsound.2
        exact ⟨r2, List.mem_cons_of_mem _ hr1, hr2⟩

/-- C3 witness: two pending executes under ids 5 and 6 with slots 51 and 61;
the replies arrive in reverse order; each slot receives exactly its own
result. -/
theorem execute_replies_pair_by_id_witness :
    (6, 61, ResponseType.ExecuteResp sampleResultB)
      ∈ (runListener [(5, 51), (6, 61)]
          ([(6, sampleResultB), (5, sampleResultA)].map (fun q => execReplyFrame q.1 q.2))).events
    ∧ (5, 51, ResponseType.ExecuteResp sampleResultA)
      ∈ (runListener [(5, 51), (6, 61)]
          ([(6, sampleResultB), (5, sampleResultA)].map (fun q => execReplyFrame q.1 q.2))).events :=
  ⟨(execute_replies_pair_by_id [(6, sampleResultB), (5, sampleResultA)] [(5, 51), (6, 61)]
      (by decide) (by decide)).1 (6, sampleResultB) (by decide) 61 (by decide),
   (execute_replies_pair_by_id [(6, sampleResultB), (5, sampleResultA)] [(5, 51), (6, 61)]
      (by decide) (by decide)).1 (5, sampleResultA) (by decide) 51 (by decide)⟩
